import Mathlib

/-!
Verification of the bounded-payload codec of the UOR-Custom-Tago-Widgets
repository.

Encoder side: `formatEntityDataForDevice` (analysis script, `src/unnamed/part_000`)
serializes entity records, compressing with gzip+base64 and chunking when the
serialized form exceeds the per-datapoint ceiling, and appends camera-device
datapoints plus summary datapoints.

Decoder side: `processRealtimeData`
(`src/UDX-BAIE-Camera-Entity-Widget/src/WidgetView.tsx`) filters realtime
datapoints by their `variable` tag, JSON-parses `entity_record` and
`camera_device` values, falls back to a legacy `entity_data` array, sorts the
results and updates the widget state.

Modelling conventions: JavaScript strings are modelled as Lean `String`
(length = number of characters), machine timestamps as `Nat` milliseconds,
thrown exceptions as `Option`/`none`, and the external library functions
`zlib.gzipSync`+base64 (`compressToBase64`) and the runtime's `JSON.parse` as
explicit function parameters (they are not code of this repository); concrete
model instances are provided for evaluation.
-/

namespace TagoWidget

/-- A JSON value as produced by the JavaScript runtime's `JSON.parse`. -/
inductive JsVal where
  | null : JsVal
  | bool (b : Bool) : JsVal
  | num (n : Int) : JsVal
  | str (s : String) : JsVal
  | arr (elems : List JsVal) : JsVal
  | obj (fields : List (String × JsVal)) : JsVal

/-- The payload of a datapoint `value` field: a string, number or boolean. -/
inductive DpValue where
  | str (s : String) : DpValue
  | num (n : Int) : DpValue
  | bool (b : Bool) : DpValue
deriving DecidableEq

/-- The metadata side-channel of a datapoint.  Each field is optional; the
encoder populates the subset relevant to the datapoint's kind.  The
`last_update` ISO string is modelled by the raw millisecond base time. -/
structure DpMetadata where
  record_type : Option String := none
  unique_id : Option String := none
  name : Option String := none
  park : Option String := none
  index : Option Nat := none
  encoding : Option String := none
  chunk_id : Option String := none
  chunk_index : Option Nat := none
  total_chunks : Option Nat := none
  device_id : Option String := none
  hostname : Option String := none
  device_type : Option String := none
  is_configured : Option Bool := none
  configured : Option Nat := none
  unconfigured : Option Nat := none
  parks : Option (List String) := none
  record_count : Option Nat := none
  camera_devices_count : Option Nat := none
  last_update : Option Nat := none
deriving DecidableEq

/-- One datapoint sent to the device.  The source field `variable` is a Lean
keyword, so it is named `var` here. -/
structure Datapoint where
  var : String
  value : DpValue
  time : Nat
  group : String
  metadata : Option DpMetadata := none
deriving DecidableEq

/-- The two size thresholds of the codec
(`{maxValueSize, chunkSize}` in the spec's terms). -/
structure Config where
  maxValueSize : Nat
  chunkSize : Nat
deriving DecidableEq

/-- Source constant `MAX_VALUE_SIZE` (5 kB, to stay under the 6 kB limit). -/
def MAX_VALUE_SIZE : Nat := 5000

/-- Source constant `CHUNK_SIZE` (size of each chunk when splitting). -/
def CHUNK_SIZE : Nat := 4500

/-- The configuration hard-coded in the source. -/
def defaultConfig : Config := { maxValueSize := MAX_VALUE_SIZE, chunkSize := CHUNK_SIZE }

/-- An entity record as seen by the encoder.  The encoder treats the record
opaquely through `JSON.stringify` (modelled by `stringifyResult`, `none` when
serialization throws, e.g. on a circular reference) plus the few fields it
copies into metadata. -/
structure EntityRecord where
  stringifyResult : Option String
  unique_id : Option String := none
  id : Option String := none
  record_type : Option String := none
  name : Option String := none
  park : Option String := none
deriving DecidableEq

/-- A camera-device summary object as built by `fetchCameraDevices`; the
encoder serializes it (modelled by `jsonStr`) and copies these fields into
metadata. -/
structure CameraDevice where
  jsonStr : String
  id : String
  name : String
  hostname : Option String := none
  device_type : String := "unknown"
  park : Option String := none
  is_configured : Bool := true
deriving DecidableEq

/-- JavaScript truthiness of an optional string
(`undefined` and the empty string are falsy). -/
def truthyStr : Option String → Option String
  | some "" => none
  | some s => some s
  | none => none

/-- Source expression `record.unique_id || record.id || ("record_" + index)`. -/
def recordIdOf (r : EntityRecord) (index : Nat) : String :=
  match truthyStr r.unique_id with
  | some s => s
  | none =>
    match truthyStr r.id with
    | some s => s
    | none => "record_" ++ toString index

/-- Source expression `record.info?.park || "Unknown"`. -/
def parkOrUnknown (r : EntityRecord) : String :=
  match truthyStr r.park with
  | some p => p
  | none => "Unknown"

/-- JavaScript `String.prototype.slice` with non-negative indices
(clamps at the end of the string). -/
def jsSlice (s : String) (a b : Nat) : String :=
  String.mk ((s.toList.drop a).take (b - a))

/-- Metadata attached to every entity-record datapoint. -/
def entityMeta (r : EntityRecord) (index : Nat) (enc : String) : DpMetadata :=
  { record_type := r.record_type
    unique_id := r.unique_id
    name := r.name
    park := some (parkOrUnknown r)
    index := some index
    encoding := some enc }

/-- Encoding of one entity record (body of the `entityRecords.forEach` loop of
`formatEntityDataForDevice`): raw JSON when it fits, gzip+base64 when the
compressed form fits, chunks of `cfg.chunkSize` otherwise.  Returns the
emitted datapoints and the advanced time offset, or `none` when
`JSON.stringify` throws. -/
def encodeRecord (cfg : Config) (compress : String → String) (currentTime : Nat)
    (groupId : String) (index : Nat) (r : EntityRecord) (timeOffset : Nat) :
    Option (List Datapoint × Nat) :=
  match r.stringifyResult with
  | none => none
  | some jsonStr =>
    if jsonStr.length ≤ cfg.maxValueSize then
      some ([{ var := "entity_record", value := .str jsonStr,
               time := currentTime + timeOffset, group := groupId,
               metadata := some (entityMeta r index "json") }], timeOffset + 1)
    else
      let compressed := compress jsonStr
      if compressed.length ≤ cfg.maxValueSize then
        some ([{ var := "entity_record", value := .str compressed,
                 time := currentTime + timeOffset, group := groupId,
                 metadata := some (entityMeta r index "gzip_base64") }], timeOffset + 1)
      else
        let totalChunks := (compressed.length + cfg.chunkSize - 1) / cfg.chunkSize
        some ((List.range totalChunks).map (fun chunkIdx =>
          { var := "entity_record_chunk",
            value := .str (jsSlice compressed (chunkIdx * cfg.chunkSize)
              ((chunkIdx + 1) * cfg.chunkSize)),
            time := currentTime + timeOffset + chunkIdx,
            group := groupId,
            metadata := some
              { entityMeta r index "gzip_base64_chunked" with
                chunk_id := some (recordIdOf r index),
                chunk_index := some chunkIdx,
                total_chunks := some totalChunks } }),
          timeOffset + totalChunks)

/-- The `entityRecords.forEach` loop: encodes records in order, threading the
record index and the time offset; a `JSON.stringify` throw aborts the whole
call (there is no try/catch around the loop body in the source). -/
def encodeRecordsGo (cfg : Config) (compress : String → String) (currentTime : Nat)
    (groupId : String) : Nat → Nat → List EntityRecord → Option (List Datapoint × Nat)
  | _, timeOffset, [] => some ([], timeOffset)
  | index, timeOffset, r :: rest => do
    let (dps, off1) ← encodeRecord cfg compress currentTime groupId index r timeOffset
    let (rest', off2) ← encodeRecordsGo cfg compress currentTime groupId (index + 1) off1 rest
    pure (dps ++ rest', off2)

/-- Metadata attached to every camera-device datapoint. -/
def cameraMeta (c : CameraDevice) (index : Nat) : DpMetadata :=
  { device_id := some c.id
    name := some c.name
    hostname := c.hostname
    device_type := some c.device_type
    park := c.park
    is_configured := some c.is_configured
    index := some index }

/-- The `cameraDevices.forEach` loop: one datapoint per camera, value =
`JSON.stringify(camera)` with no size check. -/
def encodeCamerasGo (currentTime : Nat) (groupId : String) :
    Nat → Nat → List CameraDevice → List Datapoint × Nat
  | _, timeOffset, [] => ([], timeOffset)
  | index, timeOffset, c :: rest =>
    let dp : Datapoint :=
      { var := "camera_device", value := .str c.jsonStr,
        time := currentTime + timeOffset, group := groupId,
        metadata := some (cameraMeta c index) }
    let tail := encodeCamerasGo currentTime groupId (index + 1) (timeOffset + 1) rest
    (dp :: tail.1, tail.2)

/-- Count of records of one `record_type` (the `stats` accumulator). -/
def countType (records : List EntityRecord) (t : String) : Nat :=
  records.countP (fun r => r.record_type == some t)

/-- The `parks` set, as its insertion-ordered list of distinct truthy
`info?.park` values (`Array.from(parks)`). -/
def collectParks (records : List EntityRecord) : List String :=
  records.foldl (fun acc r =>
    match truthyStr r.park with
    | some p => if p ∈ acc then acc else acc ++ [p]
    | none => acc) []

/-- The seven summary datapoints appended after the per-record datapoints
(counts by category, parks cardinality, and the `data_loaded` marker). -/
def summaryData (records : List EntityRecord) (cameras : List CameraDevice)
    (currentTime : Nat) (groupId : String) (timeOffset : Nat) : List Datapoint :=
  let parks := collectParks records
  let configuredCameras := cameras.countP (fun c => c.is_configured)
  let unconfiguredCameras := cameras.countP (fun c => !c.is_configured)
  [ { var := "total_records", value := .num (records.length : Int),
      time := currentTime + timeOffset, group := groupId },
    { var := "camera_scenarios_count", value := .num (countType records "camera_scenario" : Int),
      time := currentTime + (timeOffset + 1), group := groupId },
    { var := "queue_venues_count", value := .num (countType records "queue_venue" : Int),
      time := currentTime + (timeOffset + 2), group := groupId },
    { var := "occupancy_venues_count", value := .num (countType records "occupancy_venue" : Int),
      time := currentTime + (timeOffset + 3), group := groupId },
    { var := "camera_devices_count", value := .num (cameras.length : Int),
      time := currentTime + (timeOffset + 4), group := groupId,
      metadata := some { configured := some configuredCameras,
                         unconfigured := some unconfiguredCameras } },
    { var := "parks_count", value := .num (parks.length : Int),
      time := currentTime + (timeOffset + 5), group := groupId,
      metadata := some { parks := some parks } },
    { var := "data_loaded", value := .bool true,
      time := currentTime + (timeOffset + 6), group := groupId,
      metadata := some { record_count := some records.length,
                         camera_devices_count := some cameras.length,
                         last_update := some currentTime } } ]

/-- `formatEntityDataForDevice`: entity-record datapoints, then camera-device
datapoints, then the summary datapoints, all timestamped from the shared base
time `currentTime` with a strictly increasing offset.  `compress` models the
external `compressToBase64` (gzip + base64); `groupId` models the derived
`entity_..._...` group string.  `none` models the call throwing. -/
def formatEntityDataForDevice (cfg : Config) (compress : String → String)
    (entityRecords : List EntityRecord) (cameraDevices : List CameraDevice)
    (currentTime : Nat) (groupId : String) : Option (List Datapoint) := do
  let (recordDps, off1) ← encodeRecordsGo cfg compress currentTime groupId 0 0 entityRecords
  let (cameraDps, off2) := encodeCamerasGo currentTime groupId 0 off1 cameraDevices
  pure (recordDps ++ cameraDps ++ summaryData entityRecords cameraDevices currentTime groupId off2)

/-- JavaScript truthiness of a datapoint value
(the source guard `if (dp.value)`). -/
def dpTruthy : DpValue → Bool
  | .str s => !(s == "")
  | .num n => !(n == 0)
  | .bool b => b

/-- JavaScript `typeof parsed === "object"` restricted by the truthiness
guard `parsed && ...` of the source: arrays and objects pass, `null` does not. -/
def isObjLike : JsVal → Bool
  | .arr _ => true
  | .obj _ => true
  | _ => false

/-- JavaScript truthiness of a parsed JSON value. -/
def jsTruthy : JsVal → Bool
  | .null => false
  | .bool b => b
  | .num n => !(n == 0)
  | .str s => !(s == "")
  | .arr _ => true
  | .obj _ => true

/-- Body of the per-datapoint parsing in `processRealtimeData`: skip falsy
values, `JSON.parse` string values (a parse throw is caught, logged and yields
nothing), keep the result only when it is a truthy object; non-string values
are used directly and never pass the object check. -/
def extractRecord (parse : String → Option JsVal) (dp : Datapoint) : Option JsVal :=
  if dpTruthy dp.value then
    match dp.value with
    | .str s =>
      match parse s with
      | some parsed => if jsTruthy parsed && isObjLike parsed then some parsed else none
      | none => none
    | _ => none
  else none

/-- The legacy `entity_data` fallback: the first `entity_data` datapoint of
the group, parsed, is accepted only when it is a JSON array. -/
def legacyEntityData (parse : String → Option JsVal) (result : List Datapoint) :
    Option (List JsVal) :=
  match result.find? (fun dp => dp.var == "entity_data") with
  | some dp =>
    if dpTruthy dp.value then
      match dp.value with
      | .str s =>
        match parse s with
        | some (.arr elems) => some elems
        | _ => none
      | _ => none
    else none
  | none => none

/-- Processing of one `{result: Datapoint[]}` group of the realtime delivery:
append the parsed `entity_record` and `camera_device` datapoints to the
accumulators; when no entity records have been collected so far, fall back to
the legacy `entity_data` array. -/
def processGroup (parse : String → Option JsVal)
    (acc : List JsVal × List JsVal) (result : List Datapoint) : List JsVal × List JsVal :=
  let records := acc.1 ++ (result.filter (fun dp => dp.var == "entity_record")).filterMap
    (extractRecord parse)
  let cameras := acc.2 ++ (result.filter (fun dp => dp.var == "camera_device")).filterMap
    (extractRecord parse)
  let records' :=
    if records.isEmpty then
      match legacyEntityData parse result with
      | some elems => elems
      | none => records
    else records
  (records', cameras)

/-- JavaScript property access `v[key]` on a parsed JSON object. -/
def getField : JsVal → String → Option JsVal
  | .obj fields, key => (fields.find? (fun f => f.1 == key)).map (fun f => f.2)
  | _, _ => none

/-- The sort key `r.metadata?.index` read from a parsed record. -/
def metaIdx (v : JsVal) : Option JsVal :=
  (getField v "metadata").bind (fun m => getField m "index")

/-- Numeric value of a sort key.  A non-numeric index makes the source
comparator return `NaN`, which is not modelled; the theorems about the sort
restrict to numeric indexes. -/
def idxNum : JsVal → Int
  | .num n => n
  | _ => 0

/-- The sort fallback `(r.name || "")`: a missing or falsy `name` compares as
the empty string (non-string names are not modelled). -/
def nameOf (v : JsVal) : String :=
  match getField v "name" with
  | some (.str s) => s
  | _ => ""

/-- Character-wise three-way comparison of character lists (by code point). -/
def charListCmp : List Char → List Char → Int
  | [], [] => 0
  | [], _ :: _ => -1
  | _ :: _, [] => 1
  | a :: as, b :: bs =>
    if a.toNat < b.toNat then -1
    else if b.toNat < a.toNat then 1
    else charListCmp as bs

/-- Model of `String.prototype.localeCompare` as character-wise string order
(code-point lexicographic; locale-specific collation is not modelled). -/
def localeCmp (a b : String) : Int :=
  charListCmp a.toList b.toList

/-- The record sort comparator of `processRealtimeData`: numeric difference of
`metadata.index` when both records carry one, `localeCompare` of names
otherwise. -/
def recordCmp (a b : JsVal) : Int :=
  match metaIdx a, metaIdx b with
  | some x, some y => idxNum x - idxNum y
  | _, _ => localeCmp (nameOf a) (nameOf b)

/-- The record comparator as a Boolean precedes-or-ties relation. -/
def recordLe (a b : JsVal) : Bool := decide (recordCmp a b ≤ 0)

/-- The camera sort comparator (`localeCompare` of names). -/
def cameraLe (a b : JsVal) : Bool := decide (localeCmp (nameOf a) (nameOf b) ≤ 0)

/-- Insertion of one element into a list sorted by a comparator. -/
def jsInsert {α : Type} (le : α → α → Bool) (x : α) : List α → List α
  | [] => [x]
  | y :: ys => if le x y then x :: y :: ys else y :: jsInsert le x ys

/-- Model of `Array.prototype.sort` with a comparator, as insertion sort
(stable, and sorted for a consistent comparator, as ECMAScript requires). -/
def jsSortList {α : Type} (le : α → α → Bool) : List α → List α
  | [] => []
  | x :: xs => jsInsert le x (jsSortList le xs)

/-- The records and cameras produced by one `processRealtimeData` call. -/
structure DecodeResult where
  records : List JsVal
  cameras : List JsVal

/-- `processRealtimeData` on a realtime delivery in the TagoIO format (a list
of `{result: Datapoint[]}` groups): collect and parse the record-bearing
datapoints of every group, then sort records by the metadata-index/name
comparator and cameras by name. -/
def processRealtimeData (parse : String → Option JsVal)
    (realtimeData : List (List Datapoint)) : DecodeResult :=
  let acc := realtimeData.foldl (processGroup parse) ([], [])
  { records := jsSortList recordLe acc.1
    cameras := jsSortList cameraLe acc.2 }

/-- The widget state touched by `processRealtimeData`. -/
structure WidgetState where
  entityData : List JsVal
  cameraDevices : List JsVal

/-- The state update at the end of `processRealtimeData`: `setEntityData` runs
only when at least one record was collected, `setCameraDevices` only when at
least one camera was collected. -/
def applyRealtime (parse : String → Option JsVal)
    (realtimeData : List (List Datapoint)) (st : WidgetState) : WidgetState :=
  let res := processRealtimeData parse realtimeData
  { entityData := if res.records.isEmpty then st.entityData else res.records
    cameraDevices := if res.cameras.isEmpty then st.cameraDevices else res.cameras }

/-- Skip JSON whitespace. -/
def skipWs : List Char → List Char
  | c :: cs => if c = ' ' ∨ c = '\n' ∨ c = '\t' ∨ c = '\r' then skipWs cs else c :: cs
  | [] => []

/-- Parse the remainder of a JSON string literal (after the opening quote),
handling the basic escapes. -/
def parseStringLit : List Char → Option (String × List Char)
  | '"' :: rest => some ("", rest)
  | '\\' :: c :: rest =>
    (parseStringLit rest).bind (fun p =>
      match c with
      | '"' => some ("\"" ++ p.1, p.2)
      | '\\' => some ("\\" ++ p.1, p.2)
      | '/' => some ("/" ++ p.1, p.2)
      | 'n' => some ("\n" ++ p.1, p.2)
      | 't' => some ("\t" ++ p.1, p.2)
      | 'r' => some ("\r" ++ p.1, p.2)
      | _ => none)
  | c :: rest => (parseStringLit rest).map (fun p => (c.toString ++ p.1, p.2))
  | [] => none

/-- Parse a non-empty run of decimal digits. -/
def parseDigits (cs : List Char) : Option (Nat × List Char) :=
  let digits := cs.takeWhile Char.isDigit
  if digits.isEmpty then none
  else some (digits.foldl (fun n c => n * 10 + (c.toNat - 48)) 0, cs.dropWhile Char.isDigit)

mutual

/-- Fuel-based recursive-descent parser for one JSON value
(integer numbers only; enough for the payloads of this codec). -/
def parseValF : Nat → List Char → Option (JsVal × List Char)
  | 0, _ => none
  | Nat.succ f, cs =>
    match skipWs cs with
    | '"' :: rest => (parseStringLit rest).map (fun p => (.str p.1, p.2))
    | 'n' :: 'u' :: 'l' :: 'l' :: rest => some (.null, rest)
    | 't' :: 'r' :: 'u' :: 'e' :: rest => some (.bool true, rest)
    | 'f' :: 'a' :: 'l' :: 's' :: 'e' :: rest => some (.bool false, rest)
    | '[' :: rest =>
      (match skipWs rest with
       | ']' :: rest2 => some (.arr [], rest2)
       | _ => (parseElemsF f rest).map (fun p => (.arr p.1, p.2)))
    | '\x7b' :: rest =>
      (match skipWs rest with
       | '\x7d' :: rest2 => some (.obj [], rest2)
       | _ => (parseFieldsF f rest).map (fun p => (.obj p.1, p.2)))
    | '-' :: rest => (parseDigits rest).map (fun p => (.num (-(p.1 : Int)), p.2))
    | c :: rest =>
      if c.isDigit then (parseDigits (c :: rest)).map (fun p => (.num (p.1 : Int), p.2))
      else none
    | [] => none

/-- Parse the comma-separated elements of a non-empty JSON array, up to and
including the closing bracket. -/
def parseElemsF : Nat → List Char → Option (List JsVal × List Char)
  | 0, _ => none
  | Nat.succ f, cs => do
    let (v, rest) ← parseValF f cs
    match skipWs rest with
    | ',' :: rest2 => (parseElemsF f rest2).map (fun p => (v :: p.1, p.2))
    | ']' :: rest2 => some ([v], rest2)
    | _ => none

/-- Parse the comma-separated fields of a non-empty JSON object, up to and
including the closing brace. -/
def parseFieldsF : Nat → List Char → Option (List (String × JsVal) × List Char)
  | 0, _ => none
  | Nat.succ f, cs =>
    match skipWs cs with
    | '"' :: rest => do
      let (key, rest1) ← parseStringLit rest
      match skipWs rest1 with
      | ':' :: rest2 => do
        let (v, rest3) ← parseValF f rest2
        match skipWs rest3 with
        | ',' :: rest4 => (parseFieldsF f rest4).map (fun p => ((key, v) :: p.1, p.2))
        | '\x7d' :: rest4 => some ([(key, v)], rest4)
        | _ => none
      | _ => none
    | _ => none

end

/-- Model of the JavaScript runtime's `JSON.parse` (external to the
repository): parses one JSON value and requires only whitespace to follow. -/
def modelParse (s : String) : Option JsVal :=
  match parseValF (s.length + 1) s.toList with
  | some (v, rest) => if (skipWs rest).isEmpty then some v else none
  | none => none

/-- Concrete stand-in for the external `compressToBase64` (gzip + base64):
prefixes the gzip magic bytes in base64 (`H4sI`, as every `gzipSync` output
starts with) and keeps the payload.  Only the interface shape matters to the
code under verification: its output is an opaque string that is not valid
JSON; no theorem relies on compression shrinking its input. -/
def modelCompress (s : String) : String := "H4sI" ++ s

/-! Helper lemmas. -/

theorem string_mk_toList (s : String) : String.mk s.toList = s := by
  cases s
  rfl

theorem string_length_mk (l : List Char) : (String.mk l).length = l.length := rfl

theorem string_length_toList (s : String) : s.length = s.toList.length := rfl

theorem string_toList_mk (l : List Char) : (String.mk l).toList = l := rfl

/-- The encoding tag of a datapoint, read from its metadata. -/
def dpEncoding (dp : Datapoint) : Option String := dp.metadata.bind DpMetadata.encoding

/-- The chunk index of a datapoint, read from its metadata. -/
def dpChunkIndex (dp : Datapoint) : Option Nat := dp.metadata.bind DpMetadata.chunk_index

/-- The total chunk count of a datapoint, read from its metadata. -/
def dpTotalChunks (dp : Datapoint) : Option Nat := dp.metadata.bind DpMetadata.total_chunks

/-- The chunk group id of a datapoint, read from its metadata. -/
def dpChunkId (dp : Datapoint) : Option String := dp.metadata.bind DpMetadata.chunk_id

/-- The concatenation of the string values of a datapoint list
(chunk reassembly order = list order). -/
def concatValues (dps : List Datapoint) : String :=
  String.mk ((dps.map (fun dp => match dp.value with | .str s => s.toList | _ => [])).flatten)

/-- A `JSON.stringify` throw inside the `entityRecords.forEach` loop aborts
the whole loop: no datapoint list is produced. -/
theorem encodeRecordsGo_stringify_none (cfg : Config) (compress : String → String)
    (ct : Nat) (gid : String) :
    ∀ (pre : List EntityRecord) (i off : Nat) (r : EntityRecord) (post : List EntityRecord),
      r.stringifyResult = none →
      encodeRecordsGo cfg compress ct gid i off (pre ++ r :: post) = none
  | [], i, off, r, post, h => by
    simp [encodeRecordsGo, encodeRecord, h]
  | p :: pre, i, off, r, post, h => by
    simp only [List.cons_append, encodeRecordsGo]
    cases hp : encodeRecord cfg compress ct gid i p off with
    | none => rfl
    | some val =>
      simp [hp, encodeRecordsGo_stringify_none cfg compress ct gid pre (i + 1) val.2 r post h]

/-- C7 counterexample input: a record whose serialization succeeds. -/
def recOkC7 : EntityRecord := { stringifyResult := some "\x7b\"a\":1\x7d", name := some "ok" }

/-- C7 counterexample input: a record whose serialization throws. -/
def recFailC7 : EntityRecord := { stringifyResult := none, name := some "bad" }

/-- C7 is false as stated: with a good record followed by a record whose
serialization throws, `formatEntityDataForDevice` returns nothing at all —
the already-encoded good record is discarded and the batch aborts — although
the good record alone encodes fine. -/
theorem c7_counterexample :
    (formatEntityDataForDevice defaultConfig modelCompress [recOkC7] [] 0 "g").isSome = true ∧
    formatEntityDataForDevice defaultConfig modelCompress [recOkC7, recFailC7] [] 0 "g" = none := by
  constructor
  · rfl
  · rfl

/-- C7 (amended): a `JSON.stringify` failure on any one record aborts the
entire `formatEntityDataForDevice` call — no datapoints are emitted for any
record of the batch (the error then propagates through `updateEntityDevice`,
which logs and rethrows). -/
theorem c7_serialization_failure_aborts (cfg : Config) (compress : String → String)
    (pre post : List EntityRecord) (r : EntityRecord) (cams : List CameraDevice)
    (ct : Nat) (gid : String) (h : r.stringifyResult = none) :
    formatEntityDataForDevice cfg compress (pre ++ r :: post) cams ct gid = none := by
  simp [formatEntityDataForDevice,
    encodeRecordsGo_stringify_none cfg compress ct gid pre 0 0 r post h]

/-- Witness for C7 (amended) at a concrete input. -/
theorem c7_witness :
    formatEntityDataForDevice defaultConfig modelCompress [recOkC7, recFailC7] [] 0 "g" = none :=
  c7_serialization_failure_aborts defaultConfig modelCompress [recOkC7] []
    recFailC7 [] 0 "g" rfl

/-- C10: when zero entity records are successfully parsed, `entityData` keeps
its previous value, and when zero camera devices are parsed, `cameraDevices`
keeps its previous value — an empty or unrecognized realtime delivery never
blanks the displayed data. -/
theorem c10_empty_delivery_preserves_state (parse : String → Option JsVal)
    (realtimeData : List (List Datapoint)) (st : WidgetState) :
    ((processRealtimeData parse realtimeData).records = [] →
      (applyRealtime parse realtimeData st).entityData = st.entityData) ∧
    ((processRealtimeData parse realtimeData).cameras = [] →
      (applyRealtime parse realtimeData st).cameraDevices = st.cameraDevices) := by
  constructor <;> intro h <;> simp [applyRealtime, h]

/-- Witness for C10 at a concrete input: an empty delivery leaves the stored
record untouched. -/
theorem c10_witness :
    (applyRealtime modelParse []
      { entityData := [JsVal.obj [("name", JsVal.str "kept")]],
        cameraDevices := [] }).entityData = [JsVal.obj [("name", JsVal.str "kept")]] :=
  (c10_empty_delivery_preserves_state modelParse []
    { entityData := [JsVal.obj [("name", JsVal.str "kept")]], cameraDevices := [] }).1 rfl

/-- Every string value emitted for one entity record respects the ceiling:
the raw and compressed single datapoints by their branch conditions, the
chunks because each slice is at most `chunkSize ≤ maxValueSize` long. -/
theorem encodeRecord_value_size (cfg : Config) (compress : String → String) (ct : Nat)
    (gid : String) (index : Nat) (r : EntityRecord) (off : Nat) (dps : List Datapoint)
    (off' : Nat) (hcs : cfg.chunkSize ≤ cfg.maxValueSize)
    (h : encodeRecord cfg compress ct gid index r off = some (dps, off')) :
    ∀ dp ∈ dps, ∀ s, dp.value = .str s → s.length ≤ cfg.maxValueSize := by
  cases hser : r.stringifyResult with
  | none => rw [encodeRecord, hser] at h; exact absurd h (by simp)
  | some js =>
    simp only [encodeRecord, hser] at h
    split at h
    next h1 =>
      simp only [Option.some.injEq, Prod.mk.injEq] at h
      obtain ⟨rfl, rfl⟩ := h
      intro dp hdp s hs
      simp only [List.mem_singleton] at hdp
      subst hdp
      simp only [DpValue.str.injEq] at hs
      subst hs
      exact h1
    next h1 =>
      split at h
      next h2 =>
        simp only [Option.some.injEq, Prod.mk.injEq] at h
        obtain ⟨rfl, rfl⟩ := h
        intro dp hdp s hs
        simp only [List.mem_singleton] at hdp
        subst hdp
        simp only [DpValue.str.injEq] at hs
        subst hs
        exact h2
      next h2 =>
        simp only [Option.some.injEq, Prod.mk.injEq] at h
        obtain ⟨rfl, rfl⟩ := h
        intro dp hdp s hs
        simp only [List.mem_map, List.mem_range] at hdp
        obtain ⟨k, hk, rfl⟩ := hdp
        simp only [DpValue.str.injEq] at hs
        subst hs
        have hlen : (jsSlice (compress js) (k * cfg.chunkSize) ((k + 1) * cfg.chunkSize)).length
            ≤ cfg.chunkSize := by
          simp only [jsSlice, string_length_mk]
          calc (((compress js).toList.drop (k * cfg.chunkSize)).take
                  ((k + 1) * cfg.chunkSize - k * cfg.chunkSize)).length
              ≤ (k + 1) * cfg.chunkSize - k * cfg.chunkSize := by
                simp [List.length_take]
            _ = cfg.chunkSize := by
                simp [Nat.succ_mul]
        exact le_trans hlen hcs

/-- Every datapoint of the camera loop carries the `camera_device` tag. -/
theorem encodeCamerasGo_var (ct : Nat) (gid : String) :
    ∀ (cams : List CameraDevice) (i off : Nat),
      ∀ dp ∈ (encodeCamerasGo ct gid i off cams).1, dp.var = "camera_device"
  | [], i, off => by simp [encodeCamerasGo]
  | c :: rest, i, off => by
    simp only [encodeCamerasGo]
    intro dp hdp
    rcases List.mem_cons.mp hdp with h | h
    · subst h; rfl
    · exact encodeCamerasGo_var ct gid rest (i + 1) (off + 1) dp h

/-- Ceiling bound lifted through the `entityRecords.forEach` loop. -/
theorem encodeRecordsGo_value_size (cfg : Config) (compress : String → String) (ct : Nat)
    (gid : String) (hcs : cfg.chunkSize ≤ cfg.maxValueSize) :
    ∀ (records : List EntityRecord) (i off : Nat) (dps : List Datapoint) (off' : Nat),
      encodeRecordsGo cfg compress ct gid i off records = some (dps, off') →
      ∀ dp ∈ dps, ∀ s, dp.value = .str s → s.length ≤ cfg.maxValueSize
  | [], i, off, dps, off', h => by
    simp only [encodeRecordsGo, Option.some.injEq, Prod.mk.injEq] at h
    obtain ⟨rfl, rfl⟩ := h
    simp
  | r :: rest, i, off, dps, off', h => by
    simp only [encodeRecordsGo, Option.bind_eq_bind, Option.bind_eq_some] at h
    obtain ⟨⟨dps1, off1⟩, h1, h⟩ := h
    obtain ⟨⟨dps2, off2⟩, h2, h⟩ := h
    simp only [Option.pure_def, Option.some.injEq, Prod.mk.injEq] at h
    obtain ⟨rfl, rfl⟩ := h
    intro dp hdp s hs
    rcases List.mem_append.mp hdp with hm | hm
    · exact encodeRecord_value_size cfg compress ct gid i r off dps1 off1 hcs h1 dp hm s hs
    · exact encodeRecordsGo_value_size cfg compress ct gid hcs rest (i + 1) off1 dps2 off2
        h2 dp hm s hs

/-- C2 (amended): in every successful `formatEntityDataForDevice` call with
`chunkSize ≤ maxValueSize`, every emitted datapoint other than the
`camera_device` datapoints has a string value of at most `maxValueSize`
characters (the summary datapoints carry only numbers and booleans).  The
original claim is false because `camera_device` values are stringified with
no size check — see the counterexample. -/
theorem c2_value_ceiling (cfg : Config) (compress : String → String)
    (records : List EntityRecord) (cams : List CameraDevice) (ct : Nat) (gid : String)
    (dps : List Datapoint) (hcs : cfg.chunkSize ≤ cfg.maxValueSize)
    (h : formatEntityDataForDevice cfg compress records cams ct gid = some dps) :
    ∀ dp ∈ dps, dp.var ≠ "camera_device" → ∀ s, dp.value = .str s →
      s.length ≤ cfg.maxValueSize := by
  simp only [formatEntityDataForDevice, Option.bind_eq_bind, Option.bind_eq_some] at h
  obtain ⟨⟨dps1, off1⟩, h1, h⟩ := h
  simp only [Option.pure_def, Option.some.injEq] at h
  intro dp hdp hvar s hs
  rw [← h] at hdp
  rcases List.mem_append.mp hdp with hm | hm2
  · rcases List.mem_append.mp hm with hma | hmb
    · exact encodeRecordsGo_value_size cfg compress ct gid hcs records 0 0 dps1 off1 h1 dp hma s hs
    · exact absurd (encodeCamerasGo_var ct gid cams 0 off1 dp hmb) hvar
  · revert hs
    simp only [summaryData, List.mem_cons, List.mem_singleton] at hm2
    rcases hm2 with rfl | rfl | rfl | rfl | rfl | rfl | rfl | h' <;> simp_all

/-- The datapoint list of the C2 witness input. -/
def c2DpsW : List Datapoint :=
  (formatEntityDataForDevice defaultConfig modelCompress [recOkC7] [] 7 "g").getD []

/-- The entity-record datapoint of the C2 witness input. -/
def c2DpW : Datapoint :=
  { var := "entity_record", value := .str "\x7b\"a\":1\x7d", time := 7, group := "g",
    metadata := some (entityMeta recOkC7 0 "json") }

/-- Witness for C2 (amended) at a concrete input: the entity-record
datapoint emitted for `recOkC7` respects the ceiling. -/
theorem c2_witness : "\x7b\"a\":1\x7d".length ≤ defaultConfig.maxValueSize :=
  c2_value_ceiling defaultConfig modelCompress [recOkC7] [] 7 "g" c2DpsW (by decide) rfl
    c2DpW (by decide) (by decide) "\x7b\"a\":1\x7d" rfl

/-- C2 counterexample input: a camera device whose serialized JSON is 5001
characters long. -/
def camBig : CameraDevice :=
  { jsonStr := String.mk (List.replicate 5001 'a'), id := "c1", name := "big-cam" }

/-- C2 is false as stated: the first datapoint emitted by
`formatEntityDataForDevice` for `camBig` is a `camera_device` datapoint whose
value is 5001 characters long, exceeding `MAX_VALUE_SIZE` (5000) — the camera
loop performs no size check. -/
theorem c2_counterexample :
    ((formatEntityDataForDevice defaultConfig modelCompress [] [camBig] 0 "g").getD
        []).head?.map (fun dp => (dp.var, match dp.value with | .str s => s.length | _ => 0)) =
      some ("camera_device", 5001) ∧ MAX_VALUE_SIZE < 5001 := by
  refine ⟨?_, by decide⟩
  have h1 : ((formatEntityDataForDevice defaultConfig modelCompress [] [camBig] 0 "g").getD
      []).head? = some (Datapoint.mk "camera_device" (.str camBig.jsonStr) 0 "g"
        (some (cameraMeta camBig 0))) := by
    rfl
  rw [h1]
  show some ("camera_device", camBig.jsonStr.length) = some ("camera_device", 5001)
  rw [show camBig.jsonStr = String.mk (List.replicate 5001 'a') from rfl,
    string_length_mk, List.length_replicate]

/-- C3: the encoding kind follows the strict priority order of the source.
When the serialized record fits `maxValueSize`, exactly one datapoint is
emitted, tagged `json`, carrying the raw serialized string; otherwise when
the compressed-and-encoded form fits, exactly one datapoint tagged
`gzip_base64` carrying that string; otherwise every emitted datapoint is
tagged `gzip_base64_chunked`, and at least one is emitted. -/
theorem c3_encoding_kind (cfg : Config) (compress : String → String) (ct : Nat)
    (gid : String) (index : Nat) (r : EntityRecord) (off : Nat) (jsonStr : String)
    (hser : r.stringifyResult = some jsonStr) (hcs : 0 < cfg.chunkSize) :
    (jsonStr.length ≤ cfg.maxValueSize →
      (encodeRecord cfg compress ct gid index r off).map
          (fun p => (p.1.map dpEncoding, p.1.map Datapoint.value)) =
        some ([some "json"], [.str jsonStr])) ∧
    (¬ jsonStr.length ≤ cfg.maxValueSize → (compress jsonStr).length ≤ cfg.maxValueSize →
      (encodeRecord cfg compress ct gid index r off).map
          (fun p => (p.1.map dpEncoding, p.1.map Datapoint.value)) =
        some ([some "gzip_base64"], [.str (compress jsonStr)])) ∧
    (¬ jsonStr.length ≤ cfg.maxValueSize → ¬ (compress jsonStr).length ≤ cfg.maxValueSize →
      (encodeRecord cfg compress ct gid index r off).map (fun p => p.1.map dpEncoding) =
        some (List.replicate (((compress jsonStr).length + cfg.chunkSize - 1) / cfg.chunkSize)
          (some "gzip_base64_chunked")) ∧
      0 < ((compress jsonStr).length + cfg.chunkSize - 1) / cfg.chunkSize) := by
  refine ⟨fun h1 => ?_, fun h1 h2 => ?_, fun h1 h2 => ?_⟩
  · simp [encodeRecord, hser, h1, dpEncoding, entityMeta]
  · simp [encodeRecord, hser, h1, h2, dpEncoding, entityMeta]
  · constructor
    · simp only [encodeRecord, hser, h1, h2, if_neg, Option.map_some]
      simp [dpEncoding, entityMeta, List.map_map, Function.comp_def, List.map_const',
        List.length_range]
    · exact Nat.div_pos (by omega) hcs

/-- Witness input for C3: a record whose JSON fits the ceiling. -/
def recJsonW : EntityRecord :=
  { stringifyResult := some "\x7b\"id\":\"x2\",\"note\":\"hello\"\x7d", name := some "x2" }

/-- Witness for C3 at a concrete input: the record of spec scenario 8 is
emitted as exactly one raw-JSON datapoint. -/
theorem c3_witness :
    (encodeRecord defaultConfig modelCompress 0 "g" 0 recJsonW 0).map
        (fun p => (p.1.map dpEncoding, p.1.map Datapoint.value)) =
      some ([some "json"], [.str "\x7b\"id\":\"x2\",\"note\":\"hello\"\x7d"]) :=
  (c3_encoding_kind defaultConfig modelCompress 0 "g" 0 recJsonW 0
    "\x7b\"id\":\"x2\",\"note\":\"hello\"\x7d" rfl (by decide)).1 (by decide)

/-- Concatenating the `cs`-sized slices of a list, in slice order, recovers
the list (when the slice count covers its length). -/
theorem flatten_chunks {α : Type} (cs : Nat) :
    ∀ (n : Nat) (l : List α), l.length ≤ n * cs →
      ((List.range n).map (fun k => (l.drop (k * cs)).take cs)).flatten = l
  | 0, l, h => by
    have hl : l = [] := List.length_eq_zero.mp (by omega)
    subst hl
    simp
  | n + 1, l, h => by
    rw [List.range_succ_eq_map, List.map_cons, List.flatten_cons, Nat.zero_mul, List.drop_zero,
      List.map_map]
    have hmap : List.map ((fun k => (l.drop (k * cs)).take cs) ∘ Nat.succ) (List.range n)
        = List.map (fun k => (((l.drop cs).drop (k * cs)).take cs)) (List.range n) := by
      apply List.map_congr_left
      intro k _
      simp only [Function.comp_apply]
      rw [List.drop_drop]
      have he : Nat.succ k * cs = cs + k * cs := by
        rw [Nat.succ_mul, Nat.add_comm]
      rw [he]
    rw [Nat.succ_mul] at h
    rw [hmap, flatten_chunks cs n (l.drop cs) (by simp only [List.length_drop]; omega)]
    exact List.take_append_drop cs l

/-- C4: for a chunked record, the emitted `chunk_index` values are exactly
`0, 1, ..., total_chunks - 1` in order (no duplicates, no gaps);
`total_chunks` is the ceiling of the encoded length over `chunkSize`
(characterized by the two multiplicative bounds); all chunks carry the
record's `chunk_id`; each chunk value is at most `chunkSize` long; and the
chunk values concatenate, in index order, to the full compressed-and-encoded
string. -/
theorem c4_chunk_completeness (cfg : Config) (compress : String → String) (ct : Nat)
    (gid : String) (index : Nat) (r : EntityRecord) (off : Nat) (jsonStr : String)
    (hser : r.stringifyResult = some jsonStr)
    (h1 : ¬ jsonStr.length ≤ cfg.maxValueSize)
    (h2 : ¬ (compress jsonStr).length ≤ cfg.maxValueSize)
    (hcs : 0 < cfg.chunkSize) :
    ∀ dps off', encodeRecord cfg compress ct gid index r off = some (dps, off') →
      dps.map dpChunkIndex =
        (List.range (((compress jsonStr).length + cfg.chunkSize - 1) / cfg.chunkSize)).map some ∧
      (∀ dp ∈ dps, dpTotalChunks dp =
        some (((compress jsonStr).length + cfg.chunkSize - 1) / cfg.chunkSize)) ∧
      (∀ dp ∈ dps, dpChunkId dp = some (recordIdOf r index)) ∧
      (∀ dp ∈ dps, ∀ s, dp.value = .str s → s.length ≤ cfg.chunkSize) ∧
      cfg.chunkSize * ((((compress jsonStr).length + cfg.chunkSize - 1) / cfg.chunkSize) - 1)
        < (compress jsonStr).length ∧
      (compress jsonStr).length
        ≤ cfg.chunkSize * (((compress jsonStr).length + cfg.chunkSize - 1) / cfg.chunkSize) ∧
      concatValues dps = compress jsonStr := by
  intro dps off' h
  simp only [encodeRecord, hser, if_neg h1, if_neg h2, Option.some.injEq, Prod.mk.injEq] at h
  obtain ⟨rfl, rfl⟩ := h
  have hdm : cfg.chunkSize * (((compress jsonStr).length + cfg.chunkSize - 1) / cfg.chunkSize)
      + ((compress jsonStr).length + cfg.chunkSize - 1) % cfg.chunkSize
      = (compress jsonStr).length + cfg.chunkSize - 1 :=
    Nat.div_add_mod ((compress jsonStr).length + cfg.chunkSize - 1) cfg.chunkSize
  have hmod : ((compress jsonStr).length + cfg.chunkSize - 1) % cfg.chunkSize < cfg.chunkSize :=
    Nat.mod_lt _ hcs
  have hlpos : 0 < (compress jsonStr).length := by omega
  have hlow : cfg.chunkSize * ((((compress jsonStr).length + cfg.chunkSize - 1) / cfg.chunkSize)
      - 1) < (compress jsonStr).length := by
    have htc : 0 < ((compress jsonStr).length + cfg.chunkSize - 1) / cfg.chunkSize :=
      Nat.div_pos (by omega) hcs
    generalize hq : ((compress jsonStr).length + cfg.chunkSize - 1) / cfg.chunkSize = q
      at hdm htc ⊢
    obtain ⟨t, rfl⟩ : ∃ t, q = t + 1 := ⟨q - 1, by omega⟩
    rw [Nat.mul_succ] at hdm
    simp only [Nat.add_sub_cancel]
    omega
  have hhigh : (compress jsonStr).length ≤
      cfg.chunkSize * (((compress jsonStr).length + cfg.chunkSize - 1) / cfg.chunkSize) := by
    generalize hq : ((compress jsonStr).length + cfg.chunkSize - 1) / cfg.chunkSize = q at hdm ⊢
    omega
  refine ⟨?_, ?_, ?_, ?_, hlow, hhigh, ?_⟩
  · simp [dpChunkIndex, List.map_map, Function.comp_def]
  · intro dp hdp
    simp only [List.mem_map, List.mem_range] at hdp
    obtain ⟨k, _, rfl⟩ := hdp
    simp [dpTotalChunks]
  · intro dp hdp
    simp only [List.mem_map, List.mem_range] at hdp
    obtain ⟨k, _, rfl⟩ := hdp
    simp [dpChunkId]
  · intro dp hdp s hs
    simp only [List.mem_map, List.mem_range] at hdp
    obtain ⟨k, _, rfl⟩ := hdp
    simp only [DpValue.str.injEq] at hs
    subst hs
    simp only [jsSlice, string_length_mk]
    calc (((compress jsonStr).toList.drop (k * cfg.chunkSize)).take
            ((k + 1) * cfg.chunkSize - k * cfg.chunkSize)).length
        ≤ (k + 1) * cfg.chunkSize - k * cfg.chunkSize := by simp [List.length_take]
      _ = cfg.chunkSize := by simp [Nat.succ_mul]
  · simp only [concatValues, List.map_map, Function.comp_def, jsSlice, string_toList_mk]
    have hmap : List.map (fun k => (((compress jsonStr).toList.drop (k * cfg.chunkSize)).take
          ((k + 1) * cfg.chunkSize - k * cfg.chunkSize)))
          (List.range (((compress jsonStr).length + cfg.chunkSize - 1) / cfg.chunkSize))
        = List.map (fun k => (((compress jsonStr).toList.drop (k * cfg.chunkSize)).take
          cfg.chunkSize))
          (List.range (((compress jsonStr).length + cfg.chunkSize - 1) / cfg.chunkSize)) := by
      apply List.map_congr_left
      intro k _
      congr 1
      simp [Nat.succ_mul]
    rw [hmap, flatten_chunks cfg.chunkSize _ (compress jsonStr).toList
      (by rw [← string_length_toList, Nat.mul_comm]; exact hhigh)]
    exact string_mk_toList (compress jsonStr)

/-- A small configuration used to exercise the chunking branch concretely
(the claims quantify over all valid configurations). -/
def cfgSmall : Config := { maxValueSize := 5, chunkSize := 3 }

/-- A record whose 8-character JSON exceeds `cfgSmall.maxValueSize`, forcing
the chunked encoding. -/
def recChunkW : EntityRecord :=
  { stringifyResult := some "\x7b\"a\":22\x7d", unique_id := some "big1", name := some "Big" }

/-- Witness for C4 at a concrete input: the four chunk indexes are 0..3 in
order and the chunk values concatenate to the compressed string. -/
theorem c4_witness :
    ((encodeRecord cfgSmall modelCompress 0 "g" 0 recChunkW 0).getD ([], 0)).1.map dpChunkIndex
        = (List.range 4).map some ∧
    concatValues ((encodeRecord cfgSmall modelCompress 0 "g" 0 recChunkW 0).getD ([], 0)).1
        = modelCompress "\x7b\"a\":22\x7d" := by
  have h := c4_chunk_completeness cfgSmall modelCompress 0 "g" 0 recChunkW 0 "\x7b\"a\":22\x7d"
    rfl (by decide) (by decide) (by decide)
    ((encodeRecord cfgSmall modelCompress 0 "g" 0 recChunkW 0).getD ([], 0)).1
    ((encodeRecord cfgSmall modelCompress 0 "g" 0 recChunkW 0).getD ([], 0)).2 rfl
  exact ⟨h.1, h.2.2.2.2.2.2⟩

/-- A datapoint whose Boolean predicate is false never changes a
filter-then-filterMap pipeline. -/
theorem filterMap_filter_drop (p : Datapoint → Bool) (f : Datapoint → Option JsVal)
    (l1 l2 : List Datapoint) (d : Datapoint) (h : p d = false ∨ f d = none) :
    ((l1 ++ d :: l2).filter p).filterMap f = ((l1 ++ l2).filter p).filterMap f := by
  simp only [List.filter_append, List.filter_cons, List.filterMap_append]
  rcases h with h | h
  · rw [if_neg (by simp [h])]
  · by_cases hp : p d = true
    · rw [if_pos hp]
      simp [List.filterMap_cons, h]
    · rw [if_neg hp]

/-- A datapoint whose predicate is false never changes a `find?`. -/
theorem find?_drop (p : Datapoint → Bool) (l1 l2 : List Datapoint) (d : Datapoint)
    (h : p d = false) :
    (l1 ++ d :: l2).find? p = (l1 ++ l2).find? p := by
  rw [List.find?_append, List.find?_append, List.find?_cons_of_neg]
  simp [h]

/-- A datapoint that is not an `entity_record` contribution, not a
`camera_device`, and not `entity_data` leaves one group's processing
unchanged. -/
theorem processGroup_drop_dp (parse : String → Option JsVal) (acc : List JsVal × List JsVal)
    (l1 l2 : List Datapoint) (d : Datapoint)
    (hrec : d.var = "entity_record" → extractRecord parse d = none)
    (hcam : d.var ≠ "camera_device")
    (hleg : d.var ≠ "entity_data") :
    processGroup parse acc (l1 ++ d :: l2) = processGroup parse acc (l1 ++ l2) := by
  have hrec' : (decide (d.var = "entity_record") = false) ∨ extractRecord parse d = none := by
    by_cases hv : d.var = "entity_record"
    · exact Or.inr (hrec hv)
    · exact Or.inl (by simp [hv])
  have hleg' : legacyEntityData parse (l1 ++ d :: l2) = legacyEntityData parse (l1 ++ l2) := by
    unfold legacyEntityData
    rw [find?_drop _ l1 l2 d (by simp [hleg])]
  simp only [processGroup]
  rw [filterMap_filter_drop _ _ l1 l2 d (by simpa using hrec'),
    filterMap_filter_drop _ _ l1 l2 d (Or.inl (by simp [hcam])), hleg']

/-- Datapoint insensitivity lifted to the whole realtime delivery. -/
theorem processRealtimeData_drop_dp (parse : String → Option JsVal)
    (gpre gpost : List (List Datapoint)) (l1 l2 : List Datapoint) (d : Datapoint)
    (hrec : d.var = "entity_record" → extractRecord parse d = none)
    (hcam : d.var ≠ "camera_device")
    (hleg : d.var ≠ "entity_data") :
    processRealtimeData parse (gpre ++ (l1 ++ d :: l2) :: gpost) =
      processRealtimeData parse (gpre ++ (l1 ++ l2) :: gpost) := by
  unfold processRealtimeData
  rw [List.foldl_append, List.foldl_append, List.foldl_cons, List.foldl_cons,
    processGroup_drop_dp parse _ l1 l2 d hrec hcam hleg]

/-- C6: a datapoint whose value fails to parse changes nothing in the
decoder's output — the failure is caught per-datapoint, the decoder does not
raise (it is a total function here because the catch is inside the loop), and
every other record of the delivery is reconstructed exactly as if the corrupt
datapoint were absent. -/
theorem c6_parse_failure_isolated (parse : String → Option JsVal)
    (gpre gpost : List (List Datapoint)) (l1 l2 : List Datapoint) (d : Datapoint) (s : String)
    (hvar : d.var = "entity_record") (hval : d.value = .str s) (hparse : parse s = none) :
    processRealtimeData parse (gpre ++ (l1 ++ d :: l2) :: gpost) =
      processRealtimeData parse (gpre ++ (l1 ++ l2) :: gpost) := by
  apply processRealtimeData_drop_dp
  · intro _
    unfold extractRecord
    rw [hval]
    split
    · simp [hparse]
    · rfl
  · rw [hvar]; intro hc; exact absurd hc (by decide)
  · rw [hvar]; intro hc; exact absurd hc (by decide)

/-- A well-formed record datapoint used by decoder witnesses. -/
def dpGoodW : Datapoint :=
  { var := "entity_record", value := .str "\x7b\"name\":\"ok\",\"n\":5\x7d", time := 0,
    group := "g" }

/-- A corrupt record datapoint (its value is not valid JSON). -/
def dpBadW : Datapoint :=
  { var := "entity_record", value := .str "\x7boops", time := 1, group := "g" }

/-- Witness for C6 at a concrete input: the corrupt datapoint is dropped and
the good record of the same delivery is still reconstructed. -/
theorem c6_witness :
    processRealtimeData modelParse [[dpGoodW, dpBadW]] =
      processRealtimeData modelParse [[dpGoodW]] :=
  c6_parse_failure_isolated modelParse [] [] [dpGoodW] [] dpBadW "\x7boops" rfl rfl rfl

/-- C5 (amended): the decoder does not raise on missing chunks and omits the
incomplete record, and every fully-present record that is *not*
chunk-encoded is reconstructed exactly as if the chunk datapoints were
absent; but this holds because `processRealtimeData` ignores
`entity_record_chunk` datapoints entirely, so fully-present *chunked*
records are also omitted (see the counterexample for the original claim). -/
theorem c5_chunks_ignored (parse : String → Option JsVal)
    (gpre gpost : List (List Datapoint)) (l1 l2 : List Datapoint) (d : Datapoint)
    (hvar : d.var = "entity_record_chunk") :
    processRealtimeData parse (gpre ++ (l1 ++ d :: l2) :: gpost) =
      processRealtimeData parse (gpre ++ (l1 ++ l2) :: gpost) := by
  apply processRealtimeData_drop_dp
  · rw [hvar]; intro hc; exact absurd hc (by decide)
  · rw [hvar]; intro hc; exact absurd hc (by decide)
  · rw [hvar]; intro hc; exact absurd hc (by decide)

/-- A chunk datapoint used by the C5 witness. -/
def dpChunkW : Datapoint :=
  { var := "entity_record_chunk", value := .str "H4s", time := 2, group := "g",
    metadata := some { chunk_id := some "lost", chunk_index := some 0,
                       total_chunks := some 2, encoding := some "gzip_base64_chunked" } }

/-- Witness for C5 (amended) at a concrete input: a stray chunk datapoint
leaves the decoding of the rest of the delivery unchanged. -/
theorem c5_witness :
    processRealtimeData modelParse [[dpGoodW, dpChunkW]] =
      processRealtimeData modelParse [[dpGoodW]] :=
  c5_chunks_ignored modelParse [] [] [dpGoodW] [] dpChunkW rfl

/-- Configuration used by the C5 counterexample. -/
def cfgC5 : Config := { maxValueSize := 25, chunkSize := 10 }

/-- C5 counterexample record A: chunked, and all of its chunks will be
present. -/
def recC5A : EntityRecord :=
  { stringifyResult := some "\x7b\"name\":\"A\",\"v\":123456789012345\x7d",
    unique_id := some "bigA", name := some "A" }

/-- C5 counterexample record B: chunked, and one of its chunks will be
removed. -/
def recC5B : EntityRecord :=
  { stringifyResult := some "\x7b\"name\":\"B\",\"v\":543210987654321\x7d",
    unique_id := some "bigB", name := some "B" }

/-- C5 counterexample record C: small enough to be sent as raw JSON. -/
def recC5C : EntityRecord :=
  { stringifyResult := some "\x7b\"n\":7\x7d", unique_id := some "small", name := some "C" }

/-- The C5 counterexample delivery: the encoder's own output for records A
(4 chunks), B (4 chunks) and C (raw JSON), with B's second chunk (position 5)
removed. -/
def c5Input : List Datapoint :=
  ((formatEntityDataForDevice cfgC5 modelCompress [recC5A, recC5B, recC5C] [] 0 "g").getD
    []).eraseIdx 5

/-- C5 is false as stated: in a delivery missing one chunk of record B, the
fully-present chunked record A (all 4 of its declared 4 chunks are present)
is *not* reconstructed — the decoder returns only the raw-JSON record C.  (It
does not crash and omits the incomplete record B, but it equally omits every
complete chunked record.) -/
theorem c5_counterexample :
    c5Input.countP (fun dp => dpChunkId dp == some "bigA") = 4 ∧
    c5Input.countP (fun dp => dpChunkId dp == some "bigA" && dpTotalChunks dp == some 4) = 4 ∧
    c5Input.countP (fun dp => dpChunkId dp == some "bigB") = 3 ∧
    c5Input.countP (fun dp => dpChunkId dp == some "bigB" && dpTotalChunks dp == some 4) = 3 ∧
    (processRealtimeData modelParse [c5Input]).records = [JsVal.obj [("n", JsVal.num 7)]] :=
  ⟨rfl, rfl, rfl, rfl, rfl⟩

/-- An `entity_record` datapoint carrying a gzip+base64 value, exactly as the
encoder's `gzip_base64` branch emits (every such value starts with the gzip
magic `H4sI` and is not valid JSON). -/
def gzipValueDp : Datapoint :=
  { var := "entity_record", value := .str "H4sIAAAAAAAAAytJLS4BAAx5OSkEAAAA", time := 0,
    group := "g", metadata := some { encoding := some "gzip_base64" } }

/-- C1 fails on the code: the encoder emits the chunked encoding for a large
record (here 4 `entity_record_chunk` datapoints), but `processRealtimeData`
ignores `entity_record_chunk` datapoints entirely, so decoding the encoder's
output yields no record at all — even though the record's JSON parses to a
real object.  Likewise a `gzip_base64` value fails `JSON.parse` and is
dropped.  The decoder contains no base64/gzip/chunk handling whatsoever,
although the repository's own comment (`mockData.ts`) says compressed values
"will be handled by the async processRealtimeData". -/
theorem c1_roundtrip_fails :
    ((formatEntityDataForDevice cfgSmall modelCompress [recChunkW] [] 0 "g").getD []).countP
        (fun dp => dp.var == "entity_record_chunk") = 4 ∧
    (processRealtimeData modelParse
        [(formatEntityDataForDevice cfgSmall modelCompress [recChunkW] [] 0 "g").getD
          []]).records = [] ∧
    modelParse "\x7b\"a\":22\x7d" = some (JsVal.obj [("a", JsVal.num 22)]) ∧
    (processRealtimeData modelParse [[gzipValueDp]]).records = [] :=
  ⟨rfl, rfl, rfl, rfl⟩

/-- The datapoints of one record carry the consecutive time offsets from the
base time, and the returned offset advances by their count. -/
theorem encodeRecord_times (cfg : Config) (compress : String → String) (ct : Nat)
    (gid : String) (index : Nat) (r : EntityRecord) (off : Nat) (dps : List Datapoint)
    (off' : Nat) (h : encodeRecord cfg compress ct gid index r off = some (dps, off')) :
    off ≤ off' ∧ dps.map Datapoint.time = List.range' (ct + off) (off' - off) := by
  cases hser : r.stringifyResult with
  | none => rw [encodeRecord, hser] at h; exact absurd h (by simp)
  | some js =>
    simp only [encodeRecord, hser] at h
    split at h
    next h1 =>
      simp only [Option.some.injEq, Prod.mk.injEq] at h
      obtain ⟨rfl, rfl⟩ := h
      exact ⟨by omega, by simp [show off + 1 - off = 1 from by omega, List.range'_one]⟩
    next h1 =>
      split at h
      next h2 =>
        simp only [Option.some.injEq, Prod.mk.injEq] at h
        obtain ⟨rfl, rfl⟩ := h
        exact ⟨by omega, by simp [show off + 1 - off = 1 from by omega, List.range'_one]⟩
      next h2 =>
        simp only [Option.some.injEq, Prod.mk.injEq] at h
        obtain ⟨rfl, rfl⟩ := h
        refine ⟨Nat.le_add_right _ _, ?_⟩
        rw [List.map_map, Nat.add_sub_cancel_left, List.range'_eq_map_range]
        apply List.map_congr_left
        intro k _
        rfl

/-- Consecutive-times property lifted through the record loop. -/
theorem encodeRecordsGo_times (cfg : Config) (compress : String → String) (ct : Nat)
    (gid : String) :
    ∀ (records : List EntityRecord) (i off : Nat) (dps : List Datapoint) (off' : Nat),
      encodeRecordsGo cfg compress ct gid i off records = some (dps, off') →
      off ≤ off' ∧ dps.map Datapoint.time = List.range' (ct + off) (off' - off)
  | [], i, off, dps, off', h => by
    simp only [encodeRecordsGo, Option.some.injEq, Prod.mk.injEq] at h
    obtain ⟨rfl, rfl⟩ := h
    simp
  | r :: rest, i, off, dps, off', h => by
    simp only [encodeRecordsGo, Option.bind_eq_bind, Option.bind_eq_some] at h
    obtain ⟨⟨dps1, off1⟩, h1, h⟩ := h
    obtain ⟨⟨dps2, off2⟩, h2, h⟩ := h
    simp only [Option.pure_def, Option.some.injEq, Prod.mk.injEq] at h
    obtain ⟨rfl, rfl⟩ := h
    obtain ⟨hle1, ht1⟩ := encodeRecord_times cfg compress ct gid i r off dps1 off1 h1
    obtain ⟨hle2, ht2⟩ := encodeRecordsGo_times cfg compress ct gid rest (i + 1) off1 dps2 off2 h2
    refine ⟨by omega, ?_⟩
    rw [List.map_append, ht1, ht2]
    calc List.range' (ct + off) (off1 - off) ++ List.range' (ct + off1) (off2 - off1)
        = List.range' (ct + off) (off1 - off)
            ++ List.range' (ct + off + 1 * (off1 - off)) (off2 - off1) := by
          congr 2
          omega
      _ = List.range' (ct + off) ((off2 - off1) + (off1 - off)) :=
          List.range'_append (ct + off) (off1 - off) (off2 - off1) 1
      _ = List.range' (ct + off) (off2 - off) := by
          congr 1
          omega

/-- Consecutive-times property for the camera loop. -/
theorem encodeCamerasGo_times (ct : Nat) (gid : String) :
    ∀ (cams : List CameraDevice) (i off : Nat),
      off ≤ (encodeCamerasGo ct gid i off cams).2 ∧
      (encodeCamerasGo ct gid i off cams).1.map Datapoint.time =
        List.range' (ct + off) ((encodeCamerasGo ct gid i off cams).2 - off)
  | [], i, off => by simp [encodeCamerasGo]
  | c :: rest, i, off => by
    obtain ⟨hle, ht⟩ := encodeCamerasGo_times ct gid rest (i + 1) (off + 1)
    simp only [encodeCamerasGo]
    refine ⟨by omega, ?_⟩
    rw [List.map_cons, ht,
      show (encodeCamerasGo ct gid (i + 1) (off + 1) rest).2 - off
        = ((encodeCamerasGo ct gid (i + 1) (off + 1) rest).2 - (off + 1)) + 1 from by omega,
      List.range'_succ,
      show ct + (off + 1) = ct + off + 1 from by omega]

/-- The seven summary datapoints carry the seven consecutive offsets. -/
theorem summaryData_times (records : List EntityRecord) (cams : List CameraDevice)
    (ct : Nat) (gid : String) (off : Nat) :
    (summaryData records cams ct gid off).map Datapoint.time = List.range' (ct + off) 7 := by
  have h7 : List.range 7 = [0, 1, 2, 3, 4, 5, 6] := rfl
  rw [List.range'_eq_map_range, h7]
  simp only [summaryData, List.map_cons, List.map_nil, List.cons.injEq, and_true]
  omega

/-- C8: all datapoints of one `formatEntityDataForDevice` pass have times
that are exactly the consecutive synthetic offsets `ct, ct+1, ...` from the
shared base time, hence strictly increasing and pairwise distinct. -/
theorem c8_unique_timestamps (cfg : Config) (compress : String → String)
    (records : List EntityRecord) (cams : List CameraDevice) (ct : Nat) (gid : String)
    (dps : List Datapoint)
    (h : formatEntityDataForDevice cfg compress records cams ct gid = some dps) :
    dps.map Datapoint.time = List.range' ct dps.length ∧
    (dps.map Datapoint.time).Pairwise (· < ·) ∧
    (dps.map Datapoint.time).Nodup := by
  simp only [formatEntityDataForDevice, Option.bind_eq_bind, Option.bind_eq_some] at h
  obtain ⟨⟨dps1, off1⟩, h1, h⟩ := h
  simp only [Option.pure_def, Option.some.injEq] at h
  subst h
  obtain ⟨hle1, ht1⟩ := encodeRecordsGo_times cfg compress ct gid records 0 0 dps1 off1 h1
  obtain ⟨hle2, ht2⟩ := encodeCamerasGo_times ct gid cams 0 off1
  have hts : (dps1 ++ (encodeCamerasGo ct gid 0 off1 cams).1
      ++ summaryData records cams ct gid (encodeCamerasGo ct gid 0 off1 cams).2).map
        Datapoint.time
      = List.range' ct ((encodeCamerasGo ct gid 0 off1 cams).2 + 7) := by
    rw [List.map_append, List.map_append, ht1, ht2, summaryData_times, Nat.sub_zero,
      List.append_assoc]
    calc List.range' (ct + 0) off1 ++ (List.range' (ct + off1)
          ((encodeCamerasGo ct gid 0 off1 cams).2 - off1)
          ++ List.range' (ct + (encodeCamerasGo ct gid 0 off1 cams).2) 7)
        = List.range' (ct + 0) off1 ++ List.range' (ct + off1)
            (7 + ((encodeCamerasGo ct gid 0 off1 cams).2 - off1)) := by
          rw [show ct + (encodeCamerasGo ct gid 0 off1 cams).2
              = ct + off1 + 1 * ((encodeCamerasGo ct gid 0 off1 cams).2 - off1) from by omega]
          rw [List.range'_append]
      _ = List.range' ct ((encodeCamerasGo ct gid 0 off1 cams).2 + 7) := by
          rw [show ct + off1 = ct + 1 * off1 from by omega,
            show ct + 0 = ct from by omega,
            List.range'_append]
          congr 1
          omega
  have hlen : (dps1 ++ (encodeCamerasGo ct gid 0 off1 cams).1
      ++ summaryData records cams ct gid (encodeCamerasGo ct gid 0 off1 cams).2).length
      = (encodeCamerasGo ct gid 0 off1 cams).2 + 7 := by
    have hl := congrArg List.length hts
    rwa [List.length_map, List.length_range'] at hl
  refine ⟨by rw [hlen]; exact hts, ?_, ?_⟩
  · rw [hts]
    exact List.pairwise_lt_range' ct _
  · rw [hts]
    exact List.nodup_range' ct _

/-- Witness for C8 at a concrete input covering a chunked record, a raw
record, a camera and the summary datapoints. -/
theorem c8_witness :
    (((formatEntityDataForDevice cfgC5 modelCompress [recC5A, recC5C]
        [{ jsonStr := "\x7b\x7d", id := "c1", name := "cam" }] 100 "g").getD
      []).map Datapoint.time).Pairwise (· < ·) :=
  (c8_unique_timestamps cfgC5 modelCompress [recC5A, recC5C]
    [{ jsonStr := "\x7b\x7d", id := "c1", name := "cam" }] 100 "g"
    ((formatEntityDataForDevice cfgC5 modelCompress [recC5A, recC5C]
      [{ jsonStr := "\x7b\x7d", id := "c1", name := "cam" }] 100 "g").getD []) rfl).2.1

/-- The records collected by the decoding pass before sorting. -/
def collectedRecords (parse : String → Option JsVal)
    (realtimeData : List (List Datapoint)) : List JsVal :=
  (realtimeData.foldl (processGroup parse) ([], [])).1

/-- Whether a parsed record carries a numeric `metadata.index` sort key. -/
def hasNumIdx (v : JsVal) : Bool :=
  match metaIdx v with
  | some (.num _) => true
  | _ => false

/-- The numeric sort key of a parsed record (0 when absent). -/
def idxOf (v : JsVal) : Int :=
  match metaIdx v with
  | some x => idxNum x
  | none => 0

theorem mem_jsInsert {α : Type} (le : α → α → Bool) (x : α) :
    ∀ (l : List α) (z : α), z ∈ jsInsert le x l ↔ z = x ∨ z ∈ l
  | [], z => by simp [jsInsert]
  | y :: ys, z => by
    simp only [jsInsert]
    split
    · simp only [List.mem_cons]
    · simp only [List.mem_cons, mem_jsInsert le x ys z]
      tauto

theorem jsInsert_perm {α : Type} (le : α → α → Bool) (x : α) :
    ∀ l : List α, (jsInsert le x l).Perm (x :: l)
  | [] => by simp [jsInsert]
  | y :: ys => by
    simp only [jsInsert]
    split
    · exact List.Perm.refl _
    · exact ((jsInsert_perm le x ys).cons y).trans (List.Perm.swap x y ys)

/-- The insertion-sort model returns a permutation of its input. -/
theorem jsSortList_perm {α : Type} (le : α → α → Bool) :
    ∀ l : List α, (jsSortList le l).Perm l
  | [] => List.Perm.refl _
  | x :: xs => (jsInsert_perm le x (jsSortList le xs)).trans ((jsSortList_perm le xs).cons x)

/-- Inserting into a sorted list keeps it sorted, for any ordering `R` that
is transitive and decided by the comparator on the elements involved. -/
theorem pairwise_jsInsert {α : Type} (le : α → α → Bool) (R : α → α → Prop)
    (htrans : ∀ a b c, R a b → R b c → R a c) (x : α) :
    ∀ l : List α, (∀ y ∈ l, (le x y = true → R x y) ∧ (le x y = false → R y x)) →
      l.Pairwise R → (jsInsert le x l).Pairwise R
  | [], _, _ => by simp [jsInsert]
  | y :: ys, hx, hl => by
    simp only [jsInsert]
    obtain ⟨hy, hys⟩ := List.pairwise_cons.mp hl
    split
    next hle =>
      refine List.pairwise_cons.mpr ⟨?_, hl⟩
      intro z hz
      rcases List.mem_cons.mp hz with rfl | hz
      · exact (hx z (by simp)).1 hle
      · exact htrans x y z ((hx y (by simp)).1 hle) (hy z hz)
    next hle =>
      refine List.pairwise_cons.mpr ⟨?_, ?_⟩
      · intro z hz
        rcases (mem_jsInsert le x ys z).mp hz with hz' | hz'
        · subst hz'
          exact (hx y (by simp)).2 (by simpa using hle)
        · exact hy z hz'
      · exact pairwise_jsInsert le R htrans x ys (fun y' hy' => hx y' (by simp [hy'])) hys

/-- The insertion-sort model sorts, for any ordering `R` that is transitive
and decided by the comparator on the list's elements. -/
theorem pairwise_jsSortList {α : Type} (le : α → α → Bool) (R : α → α → Prop)
    (htrans : ∀ a b c, R a b → R b c → R a c) :
    ∀ l : List α,
      (∀ a ∈ l, ∀ b ∈ l, (le a b = true → R a b) ∧ (le a b = false → R b a)) →
      (jsSortList le l).Pairwise R
  | [], _ => by simp [jsSortList]
  | x :: xs, hconn => by
    simp only [jsSortList]
    apply pairwise_jsInsert le R htrans
    · intro y hy
      have hy' : y ∈ xs := ((jsSortList_perm le xs).mem_iff).mp hy
      exact hconn x (by simp) y (by simp [hy'])
    · exact pairwise_jsSortList le R htrans xs
        (fun a ha b hb => hconn a (by simp [ha]) b (by simp [hb]))

/-- On records that both carry a numeric `metadata.index`, the source
comparator decides exactly the numeric order of the indexes. -/
theorem recordLe_of_hasNumIdx (a b : JsVal) (ha : hasNumIdx a = true)
    (hb : hasNumIdx b = true) :
    (recordLe a b = true → idxOf a ≤ idxOf b) ∧ (recordLe a b = false → idxOf b ≤ idxOf a) := by
  unfold hasNumIdx at ha hb
  unfold recordLe recordCmp idxOf
  cases hma : metaIdx a with
  | none => rw [hma] at ha; exact absurd ha (by simp)
  | some x =>
    cases hmb : metaIdx b with
    | none => rw [hmb] at hb; exact absurd hb (by simp)
    | some y =>
      rw [hma] at ha
      rw [hmb] at hb
      cases x <;> try simp at ha
      case num n =>
        cases y <;> try simp at hb
        case num m =>
          refine ⟨fun ht => ?_, fun hf => ?_⟩
          · have h' : (n : Int) - m ≤ 0 := of_decide_eq_true ht
            show (n : Int) ≤ m
            omega
          · have h' : ¬ ((n : Int) - m ≤ 0) := of_decide_eq_false hf
            show (m : Int) ≤ n
            omega

/-- The comparison is antisymmetric: swapping the arguments negates it. -/
theorem charListCmp_swap : ∀ a b : List Char, charListCmp a b = -charListCmp b a
  | [], [] => rfl
  | [], _ :: _ => rfl
  | _ :: _, [] => rfl
  | a :: as, b :: bs => by
    simp only [charListCmp]
    by_cases h1 : a.toNat < b.toNat
    · rw [if_pos h1, if_neg (by omega : ¬ b.toNat < a.toNat), if_pos h1]
    · by_cases h2 : b.toNat < a.toNat
      · rw [if_neg h1, if_pos h2, if_pos h2]
        all_goals decide
      · rw [if_neg h1, if_neg h2, if_neg h2, if_neg h1]
        exact charListCmp_swap as bs

/-- The nonpositive side of the comparison is transitive. -/
theorem charListCmp_trans : ∀ a b c : List Char,
    charListCmp a b ≤ 0 → charListCmp b c ≤ 0 → charListCmp a c ≤ 0
  | [], _, c, _, _ => by cases c <;> simp [charListCmp]
  | _ :: _, [], _, h1, _ => by simp [charListCmp] at h1
  | _ :: _, _ :: _, [], _, h2 => by simp [charListCmp] at h2
  | a :: as, b :: bs, c :: cs, h1, h2 => by
    simp only [charListCmp] at h1 h2 ⊢
    by_cases hab : a.toNat < b.toNat
    · by_cases hbc : b.toNat < c.toNat
      · rw [if_pos (show a.toNat < c.toNat by omega)]
        decide
      · rw [if_neg hbc] at h2
        by_cases hcb : c.toNat < b.toNat
        · rw [if_pos hcb] at h2
          exact absurd h2 (by decide)
        · rw [if_pos (show a.toNat < c.toNat by omega)]
          decide
    · rw [if_neg hab] at h1
      by_cases hba : b.toNat < a.toNat
      · rw [if_pos hba] at h1
        exact absurd h1 (by decide)
      · rw [if_neg hba] at h1
        by_cases hbc : b.toNat < c.toNat
        · rw [if_pos (show a.toNat < c.toNat by omega)]
          decide
        · rw [if_neg hbc] at h2
          by_cases hcb : c.toNat < b.toNat
          · rw [if_pos hcb] at h2
            exact absurd h2 (by decide)
          · rw [if_neg hcb] at h2
            rw [if_neg (show ¬ a.toNat < c.toNat by omega),
              if_neg (show ¬ c.toNat < a.toNat by omega)]
            exact charListCmp_trans as bs cs h1 h2

/-- When either record lacks a `metadata.index`, the source comparator
decides exactly the character-wise name order. -/
theorem recordLe_of_noIdx (a b : JsVal) (h : metaIdx a = none ∨ metaIdx b = none) :
    (recordLe a b = true → localeCmp (nameOf a) (nameOf b) ≤ 0) ∧
    (recordLe a b = false → localeCmp (nameOf b) (nameOf a) ≤ 0) := by
  have hcmp : recordCmp a b = localeCmp (nameOf a) (nameOf b) := by
    unfold recordCmp
    rcases h with h | h
    · rw [h]
    · rw [h]
      cases metaIdx a <;> rfl
  unfold recordLe
  rw [hcmp]
  constructor
  · exact fun ht => of_decide_eq_true ht
  · intro hf
    have h' : ¬ localeCmp (nameOf a) (nameOf b) ≤ 0 := of_decide_eq_false hf
    have hs := charListCmp_swap (nameOf a).toList (nameOf b).toList
    unfold localeCmp at h' ⊢
    omega

/-- C9 (amended): the decoder's output records are a permutation of the
collected records, sorted by the comparator of the source; when *every*
record carries a numeric `metadata.index` the output is ordered by that index
regardless of arrival order, and when *none* does the output is ordered by
name.  In mixed batches the comparator is inconsistent (index pairs compare
by index, any pair involving an index-less record compares by name) and the
index order is not guaranteed — see the counterexample, where an index-5
record precedes an index-1 record. -/
theorem c9_sort_order (parse : String → Option JsVal)
    (realtimeData : List (List Datapoint)) :
    (processRealtimeData parse realtimeData).records.Perm
      (collectedRecords parse realtimeData) ∧
    ((collectedRecords parse realtimeData).all hasNumIdx = true →
      (processRealtimeData parse realtimeData).records.Pairwise
        (fun a b => idxOf a ≤ idxOf b)) ∧
    ((collectedRecords parse realtimeData).all (fun r => (metaIdx r).isNone) = true →
      (processRealtimeData parse realtimeData).records.Pairwise
        (fun a b => localeCmp (nameOf a) (nameOf b) ≤ 0)) := by
  have hgoal : (processRealtimeData parse realtimeData).records
      = jsSortList recordLe (collectedRecords parse realtimeData) := rfl
  refine ⟨hgoal ▸ jsSortList_perm recordLe (collectedRecords parse realtimeData),
    fun hall => ?_, fun hall => ?_⟩
  · rw [hgoal]
    exact pairwise_jsSortList recordLe (fun a b => idxOf a ≤ idxOf b)
      (fun a b c hab hbc => le_trans hab hbc)
      (collectedRecords parse realtimeData)
      (fun a ha b hb => recordLe_of_hasNumIdx a b (List.all_eq_true.mp hall a ha)
        (List.all_eq_true.mp hall b hb))
  · rw [hgoal]
    exact pairwise_jsSortList recordLe (fun a b => localeCmp (nameOf a) (nameOf b) ≤ 0)
      (fun a b c hab hbc => charListCmp_trans (nameOf a).toList (nameOf b).toList
        (nameOf c).toList hab hbc)
      (collectedRecords parse realtimeData)
      (fun a ha b hb => recordLe_of_noIdx a b
        (Or.inl (by simpa using List.all_eq_true.mp hall a ha)))

/-- A record datapoint with metadata index 2 in its JSON payload. -/
def dpIdxA : Datapoint :=
  { var := "entity_record",
    value := .str "\x7b\"name\":\"b\",\"metadata\":\x7b\"index\":2\x7d\x7d",
    time := 0, group := "g" }

/-- A record datapoint with metadata index 1 in its JSON payload. -/
def dpIdxB : Datapoint :=
  { var := "entity_record",
    value := .str "\x7b\"name\":\"a\",\"metadata\":\x7b\"index\":1\x7d\x7d",
    time := 1, group := "g" }

/-- Witness for C9 (amended) at a concrete input: two records arriving in
reverse index order come out ordered by index. -/
theorem c9_witness :
    (processRealtimeData modelParse [[dpIdxA, dpIdxB]]).records.Pairwise
      (fun a b => idxOf a ≤ idxOf b) :=
  (c9_sort_order modelParse [[dpIdxA, dpIdxB]]).2.1 rfl

/-- C9 counterexample input: a record with index 5 and name `a`. -/
def dpMixA : Datapoint :=
  { var := "entity_record",
    value := .str "\x7b\"name\":\"a\",\"metadata\":\x7b\"index\":5\x7d\x7d",
    time := 0, group := "g" }

/-- C9 counterexample input: a record with no metadata index and name `m`. -/
def dpMixM : Datapoint :=
  { var := "entity_record", value := .str "\x7b\"name\":\"m\"\x7d", time := 1, group := "g" }

/-- C9 counterexample input: a record with index 1 and name `z`. -/
def dpMixZ : Datapoint :=
  { var := "entity_record",
    value := .str "\x7b\"name\":\"z\",\"metadata\":\x7b\"index\":1\x7d\x7d",
    time := 2, group := "g" }

/-- C9 is false as stated: in a mixed batch the output order does *not*
follow the metadata index.  Here the index-5 record comes out first and the
index-1 record last, because every pairwise comparison the sort performs
routes through the name fallback (the index-less record `m` mediates), so the
inconsistent comparator never compares the two indexed records directly. -/
theorem c9_counterexample :
    (processRealtimeData modelParse [[dpMixA, dpMixM, dpMixZ]]).records.map
        (fun r => (nameOf r, metaIdx r)) =
      [("a", some (JsVal.num 5)), ("m", none), ("z", some (JsVal.num 1))] := rfl

end TagoWidget
